import Mathlib

/-
Verification of the RGBD calibration pipeline (src/Streaming/RGBDCalibration.h).

The repository ships only the class header: apart from the inline body of
setCalibration, the member-function bodies are not part of the sources.  The
numeric routines and the mailbox state machine are therefore modelled from the
specification (spec.md); the state fields, flag names and the inline
setCalibration body follow the header directly.  Real arithmetic is modelled
over the rationals, so tolerance statements from the spec become exact or
interval facts over Rat.
-/

namespace RGBD

/-- Pinhole intrinsics of a sensor: focal lengths and principal point, as used
by the back-projection formulas.  Mirrors the fields the camera objects supply
to convertDepthToPointCloud. -/
structure Intrinsics where
  fx : ℚ
  fy : ℚ
  cx : ℚ
  cy : ℚ
deriving DecidableEq

/-- Position stored in one cell of the organized point cloud: either the
explicit not-a-number sentinel written to bad points (the header compiles with
the marker at line 48 enabled, so bad points are set to NaNs), or a finite
3D position in meters. -/
inductive Pos3 where
  | nan3 : Pos3
  | fin (x y z : ℚ) : Pos3
deriving DecidableEq

/-- One cell of the organized point cloud: a validity flag (mirroring the
per-cell entry of calibrated_valid_buffer, header line 211) together with the
stored position. -/
structure PointCell where
  valid : Bool
  pos : Pos3
deriving DecidableEq

/-- Cell written for a bad depth sample: validity false and the NaN sentinel
position. -/
def invalidCell : PointCell :=
  { valid := false, pos := Pos3.nan3 }

/-- Modelled from the spec: the body of convertDepthToPointCloud is not in the
sources, so the per-cell back-projection follows the spec formulas.  For a cell
at column u, row v holding depth d millimeters: if d = 0 the cell is invalid
with the NaN sentinel; otherwise Z = d/1000, X = (u - cx) * Z / fx,
Y = (v - cy) * Z / fy. -/
def calibrateCell (intr : Intrinsics) (u v d : ℕ) : PointCell :=
  if d = 0 then invalidCell
  else
    { valid := true,
      pos := Pos3.fin (((u : ℚ) - intr.cx) * ((d : ℚ) / 1000) / intr.fx)
                      (((v : ℚ) - intr.cy) * ((d : ℚ) / 1000) / intr.fy)
                      ((d : ℚ) / 1000) }

/-- Back-projects one row of the depth grid, starting at column u. -/
def calibrateRow (intr : Intrinsics) (v : ℕ) : ℕ → List ℕ → List PointCell
  | _, [] => []
  | u, d :: rest => calibrateCell intr u v d :: calibrateRow intr v (u + 1) rest

/-- Back-projects the rows of the depth grid, starting at row v. -/
def calibrateRows (intr : Intrinsics) : ℕ → List (List ℕ) → List (List PointCell)
  | _, [] => []
  | v, row :: rest => calibrateRow intr v 0 row :: calibrateRows intr (v + 1) rest

/-- Modelled from the spec: the body of convertDepthToPointCloud is not in the
sources.  It back-projects the whole depth grid (row-major, unsigned millimeter
samples, 0 meaning invalid) into an organized point cloud of the same
dimensions. -/
def convertDepthToPointCloud (intr : Intrinsics) (depth : List (List ℕ)) :
    List (List PointCell) :=
  calibrateRows intr 0 depth

/-- Modelled from the spec: the worker reuses one point-cloud buffer across
frames and overwrites every cell of it unconditionally, so the result never
depends on the previous contents prev of the reused buffer. -/
def calibrateInto (intr : Intrinsics) (prev : List (List PointCell))
    (depth : List (List ℕ)) : List (List PointCell) :=
  convertDepthToPointCloud intr depth

/-- Depth sample of a row-major grid at row v, column u (0 when out of
bounds). -/
def depthAtD (depth : List (List ℕ)) (v u : ℕ) : ℕ :=
  (depth.getD v []).getD u 0

/-- Point-cloud cell of an organized grid at row v, column u (the invalid cell
when out of bounds). -/
def cellAtD (g : List (List PointCell)) (v u : ℕ) : PointCell :=
  (g.getD v []).getD u invalidCell

/-- Row lengths of a grid, used to state that grid organization is
preserved. -/
def rowLengths {α : Type} (g : List (List α)) : List ℕ :=
  g.map List.length

/-- Modelled from the spec: the body of mirrorDepth is not in the sources; it
reflects each row of the depth grid, undoing the known sensor mirroring
quirk. -/
def mirrorDepth (depth : List (List ℕ)) : List (List ℕ) :=
  depth.map List.reverse

/-- Color sample of one pixel: three channels. -/
structure RGBPix where
  r : ℕ
  g : ℕ
  b : ℕ
deriving DecidableEq

/-- Modelled from the spec: the body of mirrorRGB is not in the sources; it
reflects each row of the color grid pixel-wise. -/
def mirrorRGB (image : List (List RGBPix)) : List (List RGBPix) :=
  image.map List.reverse

/-- 3-vector of rationals, for translations and point positions. -/
structure Vec3 where
  x : ℚ
  y : ℚ
  z : ℚ
deriving DecidableEq

/-- 3x3 matrix of rationals, for the extrinsic rotation. -/
structure Mat3 where
  a00 : ℚ
  a01 : ℚ
  a02 : ℚ
  a10 : ℚ
  a11 : ℚ
  a12 : ℚ
  a20 : ℚ
  a21 : ℚ
  a22 : ℚ
deriving DecidableEq

/-- Matrix-vector product. -/
def matVec (m : Mat3) (p : Vec3) : Vec3 :=
  { x := m.a00 * p.x + m.a01 * p.y + m.a02 * p.z,
    y := m.a10 * p.x + m.a11 * p.y + m.a12 * p.z,
    z := m.a20 * p.x + m.a21 * p.y + m.a22 * p.z }

/-- Matrix-matrix product. -/
def matMul (m n : Mat3) : Mat3 :=
  { a00 := m.a00 * n.a00 + m.a01 * n.a10 + m.a02 * n.a20,
    a01 := m.a00 * n.a01 + m.a01 * n.a11 + m.a02 * n.a21,
    a02 := m.a00 * n.a02 + m.a01 * n.a12 + m.a02 * n.a22,
    a10 := m.a10 * n.a00 + m.a11 * n.a10 + m.a12 * n.a20,
    a11 := m.a10 * n.a01 + m.a11 * n.a11 + m.a12 * n.a21,
    a12 := m.a10 * n.a02 + m.a11 * n.a12 + m.a12 * n.a22,
    a20 := m.a20 * n.a00 + m.a21 * n.a10 + m.a22 * n.a20,
    a21 := m.a20 * n.a01 + m.a21 * n.a11 + m.a22 * n.a21,
    a22 := m.a20 * n.a02 + m.a21 * n.a12 + m.a22 * n.a22 }

/-- Identity rotation. -/
def idMat3 : Mat3 :=
  { a00 := 1, a01 := 0, a02 := 0,
    a10 := 0, a11 := 1, a12 := 0,
    a20 := 0, a21 := 0, a22 := 1 }

/-- Zero translation. -/
def zeroVec3 : Vec3 :=
  { x := 0, y := 0, z := 0 }

/-- Vector sum. -/
def vecAdd (p q : Vec3) : Vec3 :=
  { x := p.x + q.x, y := p.y + q.y, z := p.z + q.z }

/-- Vector negation. -/
def vecNeg (p : Vec3) : Vec3 :=
  { x := -p.x, y := -p.y, z := -p.z }

/-- Rigid transform of a stored position: rotation then translation on a
finite position; the NaN sentinel stays the NaN sentinel. -/
def transformPos (rot : Mat3) (t : Vec3) : Pos3 → Pos3
  | Pos3.nan3 => Pos3.nan3
  | Pos3.fin x y z =>
      let q := vecAdd (matVec rot { x := x, y := y, z := z }) t
      Pos3.fin q.x q.y q.z

/-- Rigid transform of one cell: only valid cells are touched, invalid cells
are left exactly as they are. -/
def transformCell (rot : Mat3) (t : Vec3) (c : PointCell) : PointCell :=
  if c.valid then { valid := c.valid, pos := transformPos rot t c.pos } else c

/-- Modelled from the spec: the body of transformPointCloud is not in the
sources; it applies the rigid transform (rotation then translation) to every
valid point of the organized cloud, cell-for-cell in the same buffer. -/
def transformPointCloud (rot : Mat3) (t : Vec3) (cloud : List (List PointCell)) :
    List (List PointCell) :=
  cloud.map (List.map (transformCell rot t))

/-- Pipeline state: the flag and index fields of the RGBDCalibration class
(header lines 184 to 230) that govern the two single-slot mailboxes, the
worker lifecycle and the consumer handshake.  The raw and calibrated frame
payloads are abstracted to one natural number each so that provenance can be
tracked. -/
structure PState where
  connected : Bool
  continue_calibration_thread : Bool
  pause_state : Bool
  calibration_enabled : Bool
  data_to_calibrate_available : Bool
  frameIndex_to_calibrate : ℤ
  raw_payload : ℕ
  calibrated_data_available : Bool
  frameIndex_calibrated : ℤ
  calibrated_payload : ℕ
  frameTaken : Bool
deriving DecidableEq

/-- State before any connection: nothing pending, worker not alive, the
pipeline ready to accept data (frameTaken starts true so that the processed
query reports readiness). -/
def initState : PState :=
  { connected := false,
    continue_calibration_thread := false,
    pause_state := false,
    calibration_enabled := false,
    data_to_calibrate_available := false,
    frameIndex_to_calibrate := 0,
    raw_payload := 0,
    calibrated_data_available := false,
    frameIndex_calibrated := 0,
    calibrated_payload := 0,
    frameTaken := true }

/-- Embeds the inline body of setCalibration (header line 102): it assigns the
calibration_enabled flag and touches nothing else. -/
def setCalibration (s : PState) (enable : Bool) : PState :=
  { s with calibration_enabled := enable }

/-- Modelled from the spec: the body of RGBDFrameProcessed is not in the
sources; it reports the frameTaken handshake flag (header line 223) without
modifying anything. -/
def RGBDFrameProcessed (s : PState) : Bool :=
  s.frameTaken

/-- Modelled from the spec: the body of getFrameData is not in the sources.
When a calibrated frame is pending it is copied out, the calibrated mailbox is
cleared and the frame is marked taken, returning true; otherwise it returns
false and leaves the state untouched. -/
def getFrameData (s : PState) : Bool × PState :=
  if s.calibrated_data_available then
    (true,
      { s with calibrated_data_available := false, frameTaken := true })
  else
    (false, s)

/-- Events of the three execution contexts: configuration calls, a producer
submission (processPyRGBD with a frame index and payload), one drain-and-
publish step of the calibration thread, the consumer getFrameData call, and
the non-consuming RGBDFrameProcessed query. -/
inductive Ev where
  | connect : Ev
  | disconnect : Ev
  | setPause (b : Bool) : Ev
  | setCalibration (b : Bool) : Ev
  | submit (idx : ℤ) (payload : ℕ) : Ev
  | work : Ev
  | getFrame : Ev
  | queryProcessed : Ev
deriving DecidableEq

/-- Modelled from the spec: one interleaving step of the pipeline.  connect
starts the worker thread paused (header line 59: by default it is going to be
paused after a connection); disconnect stops it; submit publishes into the raw
mailbox (last write wins) unless calibration is disabled or the pipeline is
not connected; work lets the running, unpaused worker drain the raw mailbox
and publish the calibrated result carrying the same frame index; getFrame is
the consumer take; the processed query changes nothing. -/
def stepEv (s : PState) : Ev → PState
  | Ev.connect =>
      { s with connected := true, continue_calibration_thread := true,
               pause_state := true }
  | Ev.disconnect =>
      { s with connected := false, continue_calibration_thread := false }
  | Ev.setPause b => { s with pause_state := b }
  | Ev.setCalibration b => setCalibration s b
  | Ev.submit idx payload =>
      if s.calibration_enabled && s.connected then
        { s with data_to_calibrate_available := true,
                 frameIndex_to_calibrate := idx,
                 raw_payload := payload }
      else s
  | Ev.work =>
      if s.continue_calibration_thread && !s.pause_state
          && s.data_to_calibrate_available then
        { s with data_to_calibrate_available := false,
                 calibrated_data_available := true,
                 frameIndex_calibrated := s.frameIndex_to_calibrate,
                 calibrated_payload := s.raw_payload,
                 frameTaken := false }
      else s
  | Ev.getFrame => (getFrameData s).2
  | Ev.queryProcessed => s

/-- Runs a list of events from a given state. -/
def runFrom (s : PState) (evs : List Ev) : PState :=
  evs.foldl stepEv s

/-- Runs a list of events from the initial state. -/
def runEvents (evs : List Ev) : PState :=
  runFrom initState evs

/-- Frames (index, payload) the consumer observes through getFrameData calls
along an event list, in order. -/
def obsFrom : PState → List Ev → List (ℤ × ℕ)
  | _, [] => []
  | s, e :: rest =>
      (match e with
       | Ev.getFrame =>
           if s.calibrated_data_available then
             [(s.frameIndex_calibrated, s.calibrated_payload)]
           else []
       | _ => []) ++ obsFrom (stepEv s e) rest

/-- Frames the worker publishes into the calibrated mailbox along an event
list, in order. -/
def publishedFrom : PState → List Ev → List (ℤ × ℕ)
  | _, [] => []
  | s, e :: rest =>
      (match e with
       | Ev.work =>
           if s.continue_calibration_thread && !s.pause_state
               && s.data_to_calibrate_available then
             [(s.frameIndex_to_calibrate, s.raw_payload)]
           else []
       | _ => []) ++ publishedFrom (stepEv s e) rest

/-- Frames submitted by the producer along an event list, in order. -/
def submittedPairs : List Ev → List (ℤ × ℕ)
  | [] => []
  | Ev.submit idx payload :: rest => (idx, payload) :: submittedPairs rest
  | _ :: rest => submittedPairs rest

/-- Contents of the raw mailbox as a zero- or one-element list. -/
def pendingRaw (s : PState) : List (ℤ × ℕ) :=
  if s.data_to_calibrate_available then
    [(s.frameIndex_to_calibrate, s.raw_payload)]
  else []

/-- Contents of the calibrated mailbox as a zero- or one-element list. -/
def pendingCal (s : PState) : List (ℤ × ℕ) :=
  if s.calibrated_data_available then
    [(s.frameIndex_calibrated, s.calibrated_payload)]
  else []

/-- Worker lifecycle states as the spec names them. -/
inductive WState where
  | Idle : WState
  | Running : WState
  | Paused : WState
deriving DecidableEq

/-- Worker state read off the thread-alive and pause flags. -/
def workerState (s : PState) : WState :=
  if s.continue_calibration_thread then
    (if s.pause_state then WState.Paused else WState.Running)
  else WState.Idle

/-- Modelled from the spec: the two mailbox locks. -/
inductive MailboxLock where
  | rawLock : MailboxLock
  | calibLock : MailboxLock
deriving DecidableEq

/-- Modelled from the spec: which mailbox locks each operation acquires (one
per mailbox, never both at once across the calibration computation);
setCalibration, whose inline body is in the header, acquires none. -/
def acquiredLocks : Ev → List MailboxLock
  | Ev.submit _ _ => [MailboxLock.rawLock]
  | Ev.work => [MailboxLock.rawLock, MailboxLock.calibLock]
  | Ev.getFrame => [MailboxLock.calibLock]
  | _ => []

/-- Events of the backpressure scenario: connect, enable calibration, resume,
then submit frame A and frame B back to back. -/
def scenEvents (a1 : ℤ) (p1 : ℕ) (a2 : ℤ) (p2 : ℕ) : List Ev :=
  [Ev.connect, Ev.setCalibration true, Ev.setPause false,
   Ev.submit a1 p1, Ev.submit a2 p2]

/-- Pipeline state right after the backpressure scenario events: frame B sits
in the raw mailbox, nothing is calibrated yet. -/
def scenState1 (a : ℤ) (p : ℕ) : PState :=
  { connected := true,
    continue_calibration_thread := true,
    pause_state := false,
    calibration_enabled := true,
    data_to_calibrate_available := true,
    frameIndex_to_calibrate := a,
    raw_payload := p,
    calibrated_data_available := false,
    frameIndex_calibrated := 0,
    calibrated_payload := 0,
    frameTaken := true }

/-- Scenario state after the worker drained frame B: B sits calibrated in the
output mailbox. -/
def scenState2 (a : ℤ) (p : ℕ) : PState :=
  { connected := true,
    continue_calibration_thread := true,
    pause_state := false,
    calibration_enabled := true,
    data_to_calibrate_available := false,
    frameIndex_to_calibrate := a,
    raw_payload := p,
    calibrated_data_available := true,
    frameIndex_calibrated := a,
    calibrated_payload := p,
    frameTaken := false }

/-- Scenario state after the consumer took calibrated frame B. -/
def scenState3 (a : ℤ) (p : ℕ) : PState :=
  { connected := true,
    continue_calibration_thread := true,
    pause_state := false,
    calibration_enabled := true,
    data_to_calibrate_available := false,
    frameIndex_to_calibrate := a,
    raw_payload := p,
    calibrated_data_available := false,
    frameIndex_calibrated := a,
    calibrated_payload := p,
    frameTaken := true }

/-- Suffixes of the backpressure scenario contain only worker steps and
consumer takes. -/
def workGetOnly (l : List Ev) : Prop :=
  ∀ e ∈ l, e = Ev.work ∨ e = Ev.getFrame

instance (l : List Ev) : Decidable (workGetOnly l) := by
  unfold workGetOnly
  infer_instance

/-- Intrinsics of the spec test vector: fx = fy = 525, cx = 319.5,
cy = 239.5. -/
def stdIntrinsics : Intrinsics :=
  { fx := 525, fy := 525, cx := 639 / 2, cy := 479 / 2 }

/-- Depth grid of the spec test vector: 640 x 480, uniformly 1000
millimeters. -/
def uniformDepth : List (List ℕ) :=
  List.replicate 480 (List.replicate 640 1000)

/-- Rotation by a quarter turn about the z axis, used as the witness
transform. -/
def rotZ90 : Mat3 :=
  { a00 := 0, a01 := -1, a02 := 0,
    a10 := 1, a11 := 0, a12 := 0,
    a20 := 0, a21 := 0, a22 := 1 }

/-- Transpose of rotZ90, its inverse. -/
def rotZ90inv : Mat3 :=
  { a00 := 0, a01 := 1, a02 := 0,
    a10 := -1, a11 := 0, a12 := 0,
    a20 := 0, a21 := 0, a22 := 1 }

/-- Interleaving in which the worker drains frame A between the two
submissions: submit A, worker publishes calibrated A, submit B, consumer
takes — the consumer observes A although A and then B were both submitted
before the getFrameData call. -/
def cexEvents : List Ev :=
  [Ev.connect, Ev.setCalibration true, Ev.setPause false,
   Ev.submit 1 10, Ev.work, Ev.submit 2 20, Ev.getFrame]

/-- Event trace used by the backpressure witness: one full submit, drain and
take round for frame (1, 10), then another for frame (2, 20). -/
def monoEvents : List Ev :=
  [Ev.connect, Ev.setCalibration true, Ev.setPause false,
   Ev.submit 1 10, Ev.work, Ev.getFrame,
   Ev.submit 2 20, Ev.work, Ev.getFrame]

theorem getD_replicate_eq {α : Type} (n : ℕ) (a : α) (v : ℕ) (d : α) :
    (List.replicate n a).getD v d = if v < n then a else d := by
  induction n generalizing v with
  | zero => simp
  | succ m ih =>
      cases v with
      | zero => simp [List.replicate_succ]
      | succ w => simpa [List.replicate_succ, Nat.succ_lt_succ_iff] using ih w

theorem calibrateCell_zero (intr : Intrinsics) (u v : ℕ) :
    calibrateCell intr u v 0 = invalidCell := by
  simp [calibrateCell]

theorem calibrateRow_getD (intr : Intrinsics) (v : ℕ) :
    ∀ (row : List ℕ) (u i : ℕ),
      (calibrateRow intr v u row).getD i invalidCell =
        calibrateCell intr (u + i) v (row.getD i 0)
  | [], u, i => by simp [calibrateRow, calibrateCell_zero]
  | d :: rest, u, 0 => by simp [calibrateRow]
  | d :: rest, u, i + 1 => by
      have ih := calibrateRow_getD intr v rest (u + 1) i
      simpa [calibrateRow, Nat.add_assoc, Nat.add_comm 1 i] using ih

theorem calibrateRow_length (intr : Intrinsics) (v : ℕ) :
    ∀ (u : ℕ) (row : List ℕ), (calibrateRow intr v u row).length = row.length
  | _, [] => rfl
  | u, d :: rest => by
      simp [calibrateRow, calibrateRow_length intr v (u + 1) rest]

theorem calibrateRows_getD (intr : Intrinsics) :
    ∀ (depth : List (List ℕ)) (v i : ℕ),
      (calibrateRows intr v depth).getD i [] =
        calibrateRow intr (v + i) 0 (depth.getD i [])
  | [], v, i => by simp [calibrateRows, calibrateRow]
  | row :: rest, v, 0 => by simp [calibrateRows]
  | row :: rest, v, i + 1 => by
      have ih := calibrateRows_getD intr rest (v + 1) i
      simpa [calibrateRows, Nat.add_assoc, Nat.add_comm 1 i] using ih

theorem calibrateRows_length (intr : Intrinsics) :
    ∀ (v : ℕ) (depth : List (List ℕ)),
      (calibrateRows intr v depth).length = depth.length
  | _, [] => rfl
  | v, row :: rest => by
      simp [calibrateRows, calibrateRows_length intr (v + 1) rest]

theorem calibrateRows_rowLengths (intr : Intrinsics) :
    ∀ (v : ℕ) (depth : List (List ℕ)),
      rowLengths (calibrateRows intr v depth) = rowLengths depth
  | _, [] => rfl
  | v, row :: rest => by
      have ih := calibrateRows_rowLengths intr (v + 1) rest
      unfold rowLengths at ih ⊢
      simp [calibrateRows, calibrateRow_length, ih]

/-- Every cell of the produced organized cloud is the back-projection of the
matching depth sample; out-of-range indices give the invalid cell on both
sides. -/
theorem cellAtD_convert (intr : Intrinsics) (depth : List (List ℕ)) (v u : ℕ) :
    cellAtD (convertDepthToPointCloud intr depth) v u =
      calibrateCell intr u v (depthAtD depth v u) := by
  unfold cellAtD convertDepthToPointCloud depthAtD
  rw [calibrateRows_getD, calibrateRow_getD]
  simp

theorem depthAtD_uniform (v u : ℕ) (hv : v < 480) (hu : u < 640) :
    depthAtD uniformDepth v u = 1000 := by
  unfold depthAtD uniformDepth
  rw [getD_replicate_eq, if_pos hv, getD_replicate_eq, if_pos hu]

theorem matVec_id (p : Vec3) : matVec idMat3 p = p := by
  simp [matVec, idMat3]

theorem transformCell_id (c : PointCell) :
    transformCell idMat3 zeroVec3 c = c := by
  obtain ⟨bv, pos⟩ := c
  cases bv <;> cases pos <;>
    simp [transformCell, transformPos, vecAdd, matVec, idMat3, zeroVec3]

theorem transformPointCloud_id (cloud : List (List PointCell)) :
    transformPointCloud idMat3 zeroVec3 cloud = cloud := by
  have hc : transformCell idMat3 zeroVec3 = id := funext transformCell_id
  simp [transformPointCloud, hc]

theorem transformPointCloud_length (rot : Mat3) (t : Vec3)
    (cloud : List (List PointCell)) :
    (transformPointCloud rot t cloud).length = cloud.length := by
  simp [transformPointCloud]

theorem transformPointCloud_rowLengths (rot : Mat3) (t : Vec3)
    (cloud : List (List PointCell)) :
    rowLengths (transformPointCloud rot t cloud) = rowLengths cloud := by
  simp [transformPointCloud, rowLengths, List.map_map, Function.comp_def]

theorem transformCell_inv (rot rinv : Mat3) (t : Vec3)
    (h : matMul rinv rot = idMat3) (c : PointCell) :
    transformCell rinv (vecNeg (matVec rinv t)) (transformCell rot t c) = c := by
  have h00 := congrArg Mat3.a00 h
  have h01 := congrArg Mat3.a01 h
  have h02 := congrArg Mat3.a02 h
  have h10 := congrArg Mat3.a10 h
  have h11 := congrArg Mat3.a11 h
  have h12 := congrArg Mat3.a12 h
  have h20 := congrArg Mat3.a20 h
  have h21 := congrArg Mat3.a21 h
  have h22 := congrArg Mat3.a22 h
  simp only [matMul, idMat3] at h00 h01 h02 h10 h11 h12 h20 h21 h22
  obtain ⟨bv, pos⟩ := c
  cases bv <;> cases pos <;>
    simp [transformCell, transformPos, vecAdd, vecNeg, matVec]
  case true.fin x y z =>
    refine ⟨?_, ?_, ?_⟩
    · linear_combination x * h00 + y * h01 + z * h02
    · linear_combination x * h10 + y * h11 + z * h12
    · linear_combination x * h20 + y * h21 + z * h22

theorem transformPointCloud_inv (rot rinv : Mat3) (t : Vec3)
    (h : matMul rinv rot = idMat3) (cloud : List (List PointCell)) :
    transformPointCloud rinv (vecNeg (matVec rinv t))
      (transformPointCloud rot t cloud) = cloud := by
  have hc : ∀ c, transformCell rinv (vecNeg (matVec rinv t))
      (transformCell rot t c) = c := transformCell_inv rot rinv t h
  simp [transformPointCloud, List.map_map, Function.comp_def, hc]

/-- C1: back-projection correctness.  Every cell of the produced cloud is the
back-projection of its depth sample; a nonzero depth d maps to Z = d/1000,
X = (u - cx) Z / fx, Y = (v - cy) Z / fy; on the 640x480 grid uniformly
filled with 1000 mm and fx = fy = 525, cx = 319.5, cy = 239.5, the point at
pixel (319, 239) is (−1/1050, −1/1050, 1), so Z = 1 within 1e-6 and X, Y
within 1e-3 of 0, and the point at pixel (0, 0) has X = −319.5/525 within
1e-4 of −0.6086 and Y = −239.5/525 within 1e-4 of −0.4562. -/
theorem backprojection_correct (intr : Intrinsics) (depth : List (List ℕ))
    (v u d : ℕ) (hd : d ≠ 0) :
    cellAtD (convertDepthToPointCloud intr depth) v u =
      calibrateCell intr u v (depthAtD depth v u) ∧
    calibrateCell intr u v d =
      { valid := true,
        pos := Pos3.fin (((u : ℚ) - intr.cx) * ((d : ℚ) / 1000) / intr.fx)
                        (((v : ℚ) - intr.cy) * ((d : ℚ) / 1000) / intr.fy)
                        ((d : ℚ) / 1000) } ∧
    cellAtD (convertDepthToPointCloud stdIntrinsics uniformDepth) 239 319 =
      { valid := true, pos := Pos3.fin (-1 / 1050) (-1 / 1050) 1 } ∧
    |(1 : ℚ) - 1| ≤ 1 / 1000000 ∧ |(-1 / 1050 : ℚ)| ≤ 1 / 1000 ∧
    cellAtD (convertDepthToPointCloud stdIntrinsics uniformDepth) 0 0 =
      { valid := true, pos := Pos3.fin (-213 / 350) (-479 / 1050) 1 } ∧
    |(-213 / 350 : ℚ) - (-6086 / 10000)| ≤ 1 / 10000 ∧
    |(-479 / 1050 : ℚ) - (-4562 / 10000)| ≤ 1 / 10000 := by
  refine ⟨cellAtD_convert intr depth v u, ?_, ?_, ?_, ?_, ?_, ?_, ?_⟩
  · simp [calibrateCell, hd]
  · rw [cellAtD_convert,
      depthAtD_uniform 239 319 (by norm_num) (by norm_num)]
    simp [calibrateCell, stdIntrinsics]
    norm_num
  · norm_num
  · rw [abs_le]
    constructor <;> norm_num
  · rw [cellAtD_convert, depthAtD_uniform 0 0 (by norm_num) (by norm_num)]
    simp [calibrateCell, stdIntrinsics]
    norm_num
  · rw [abs_le]
    constructor <;> norm_num
  · rw [abs_le]
    constructor <;> norm_num

/-- Witness for C1 at the one-cell grid holding depth 7. -/
theorem backprojection_correct_witness :
    (7 : ℕ) ≠ 0 ∧
    (cellAtD (convertDepthToPointCloud stdIntrinsics [[7]]) 0 0 =
      calibrateCell stdIntrinsics 0 0 (depthAtD [[7]] 0 0) ∧
    calibrateCell stdIntrinsics 0 0 7 =
      { valid := true,
        pos := Pos3.fin
          ((((0 : ℕ) : ℚ) - stdIntrinsics.cx) * (((7 : ℕ) : ℚ) / 1000) /
            stdIntrinsics.fx)
          ((((0 : ℕ) : ℚ) - stdIntrinsics.cy) * (((7 : ℕ) : ℚ) / 1000) /
            stdIntrinsics.fy)
          (((7 : ℕ) : ℚ) / 1000) } ∧
    cellAtD (convertDepthToPointCloud stdIntrinsics uniformDepth) 239 319 =
      { valid := true, pos := Pos3.fin (-1 / 1050) (-1 / 1050) 1 } ∧
    |(1 : ℚ) - 1| ≤ 1 / 1000000 ∧ |(-1 / 1050 : ℚ)| ≤ 1 / 1000 ∧
    cellAtD (convertDepthToPointCloud stdIntrinsics uniformDepth) 0 0 =
      { valid := true, pos := Pos3.fin (-213 / 350) (-479 / 1050) 1 } ∧
    |(-213 / 350 : ℚ) - (-6086 / 10000)| ≤ 1 / 10000 ∧
    |(-479 / 1050 : ℚ) - (-4562 / 10000)| ≤ 1 / 10000) :=
  ⟨by norm_num, backprojection_correct stdIntrinsics [[7]] 0 0 7 (by norm_num)⟩

/-- C2: invalid-depth mapping.  A zero depth sample yields the invalid cell
(validity false, NaN sentinel position) independently of any previous
contents of the reused output buffer, and the output grid keeps the row
count, the row lengths and hence the cell count of the input depth grid. -/
theorem invalid_depth_mapping (intr : Intrinsics)
    (prevA prevB : List (List PointCell)) (depth : List (List ℕ)) (v u : ℕ)
    (h0 : depthAtD depth v u = 0) :
    cellAtD (calibrateInto intr prevA depth) v u = invalidCell ∧
    invalidCell.valid = false ∧ invalidCell.pos = Pos3.nan3 ∧
    (calibrateInto intr prevA depth).length = depth.length ∧
    rowLengths (calibrateInto intr prevA depth) = rowLengths depth ∧
    calibrateInto intr prevA depth = calibrateInto intr prevB depth := by
  refine ⟨?_, rfl, rfl, ?_, ?_, rfl⟩
  · show cellAtD (convertDepthToPointCloud intr depth) v u = invalidCell
    rw [cellAtD_convert, h0, calibrateCell_zero]
  · exact calibrateRows_length intr 0 depth
  · exact calibrateRows_rowLengths intr 0 depth

/-- Witness for C2 at the one-cell grid holding depth 0. -/
theorem invalid_depth_mapping_witness :
    depthAtD [[0]] 0 0 = 0 ∧
    (cellAtD (calibrateInto stdIntrinsics [] [[0]]) 0 0 = invalidCell ∧
    invalidCell.valid = false ∧ invalidCell.pos = Pos3.nan3 ∧
    (calibrateInto stdIntrinsics [] [[0]]).length = ([[0]] : List (List ℕ)).length ∧
    rowLengths (calibrateInto stdIntrinsics [] [[0]]) =
      rowLengths ([[0]] : List (List ℕ)) ∧
    calibrateInto stdIntrinsics [] [[0]] =
      calibrateInto stdIntrinsics [[invalidCell]] [[0]]) :=
  ⟨rfl, invalid_depth_mapping stdIntrinsics [] [[invalidCell]] [[0]] 0 0 rfl⟩

/-- C5: mirror idempotence.  Mirroring the depth grid twice and mirroring the
color grid twice give back the original grids exactly. -/
theorem mirror_idempotent (depth : List (List ℕ)) (image : List (List RGBPix)) :
    mirrorDepth (mirrorDepth depth) = depth ∧
    mirrorRGB (mirrorRGB image) = image := by
  constructor <;> simp [mirrorDepth, mirrorRGB, List.map_map, Function.comp_def]

/-- C6: extrinsic alignment.  The identity rotation with zero translation is
a no-op on the whole cloud; the transform keeps the grid dimensions and
leaves invalid cells untouched (it rewrites cells in place, never compacting
or reallocating); and applying a transform followed by its inverse restores
the original cloud. -/
theorem transform_identity_and_inverse (rot rinv : Mat3) (t : Vec3)
    (cloud : List (List PointCell)) (c : PointCell)
    (hinv : matMul rinv rot = idMat3) (hc : c.valid = false) :
    transformPointCloud idMat3 zeroVec3 cloud = cloud ∧
    (transformPointCloud rot t cloud).length = cloud.length ∧
    rowLengths (transformPointCloud rot t cloud) = rowLengths cloud ∧
    transformCell rot t c = c ∧
    transformPointCloud rinv (vecNeg (matVec rinv t))
      (transformPointCloud rot t cloud) = cloud := by
  refine ⟨transformPointCloud_id cloud, transformPointCloud_length rot t cloud,
    transformPointCloud_rowLengths rot t cloud, ?_,
    transformPointCloud_inv rot rinv t hinv cloud⟩
  simp [transformCell, hc]

/-- Witness for C6 at a quarter-turn rotation, translation (1, 2, 3) and a
one-row cloud holding a valid point and an invalid cell. -/
theorem transform_identity_and_inverse_witness :
    matMul rotZ90inv rotZ90 = idMat3 ∧ invalidCell.valid = false ∧
    (transformPointCloud idMat3 zeroVec3
        [[{ valid := true, pos := Pos3.fin 1 2 3 }, invalidCell]] =
      [[{ valid := true, pos := Pos3.fin 1 2 3 }, invalidCell]] ∧
    (transformPointCloud rotZ90 { x := 1, y := 2, z := 3 }
        [[{ valid := true, pos := Pos3.fin 1 2 3 }, invalidCell]]).length =
      ([[{ valid := true, pos := Pos3.fin 1 2 3 }, invalidCell]] :
        List (List PointCell)).length ∧
    rowLengths (transformPointCloud rotZ90 { x := 1, y := 2, z := 3 }
        [[{ valid := true, pos := Pos3.fin 1 2 3 }, invalidCell]]) =
      rowLengths ([[{ valid := true, pos := Pos3.fin 1 2 3 }, invalidCell]] :
        List (List PointCell)) ∧
    transformCell rotZ90 { x := 1, y := 2, z := 3 } invalidCell = invalidCell ∧
    transformPointCloud rotZ90inv
        (vecNeg (matVec rotZ90inv { x := 1, y := 2, z := 3 }))
        (transformPointCloud rotZ90 { x := 1, y := 2, z := 3 }
          [[{ valid := true, pos := Pos3.fin 1 2 3 }, invalidCell]]) =
      [[{ valid := true, pos := Pos3.fin 1 2 3 }, invalidCell]]) :=
  ⟨by simp [matMul, rotZ90inv, rotZ90, idMat3], rfl,
    transform_identity_and_inverse rotZ90 rotZ90inv { x := 1, y := 2, z := 3 }
      [[{ valid := true, pos := Pos3.fin 1 2 3 }, invalidCell]] invalidCell
      (by simp [matMul, rotZ90inv, rotZ90, idMat3]) rfl⟩

theorem stepEv_frameTaken (s : PState) (e : Ev)
    (h : s.frameTaken = !s.calibrated_data_available) :
    (stepEv s e).frameTaken = !(stepEv s e).calibrated_data_available := by
  cases e <;> simp only [stepEv, setCalibration, getFrameData] <;>
    first
      | exact h
      | (split <;> simp [h])

theorem runFrom_frameTaken (evs : List Ev) :
    ∀ s : PState, s.frameTaken = !s.calibrated_data_available →
      (runFrom s evs).frameTaken = !(runFrom s evs).calibrated_data_available := by
  induction evs with
  | nil => intro s h; exact h
  | cons e rest ih =>
      intro s h
      exact ih (stepEv s e) (stepEv_frameTaken s e h)

/-- Every frame the worker publishes, and the raw frame still pending at the
end, stem from the submissions, in submission order: the core last-write-wins
bookkeeping invariant of the raw mailbox. -/
theorem published_sublist (evs : List Ev) :
    ∀ s : PState,
      List.Sublist (publishedFrom s evs ++ pendingRaw (runFrom s evs))
        (pendingRaw s ++ submittedPairs evs) := by
  induction evs with
  | nil =>
      intro s
      simp only [publishedFrom, runFrom, List.foldl_nil, submittedPairs,
        List.nil_append, List.append_nil]
      exact List.Sublist.refl _
  | cons e rest ih =>
      intro s
      cases e with
      | connect => exact ih (stepEv s Ev.connect)
      | disconnect => exact ih (stepEv s Ev.disconnect)
      | setPause b => exact ih (stepEv s (Ev.setPause b))
      | setCalibration b => exact ih (stepEv s (Ev.setCalibration b))
      | queryProcessed => exact ih (stepEv s Ev.queryProcessed)
      | submit idx payload =>
          by_cases hg : (s.calibration_enabled && s.connected) = true
          · have hs : stepEv s (Ev.submit idx payload) =
                { s with data_to_calibrate_available := true,
                         frameIndex_to_calibrate := idx,
                         raw_payload := payload } := by
              simp [stepEv, hg]
            have h := ih (stepEv s (Ev.submit idx payload))
            rw [hs] at h
            have h2 : List.Sublist
                (publishedFrom (stepEv s (Ev.submit idx payload)) rest ++
                  pendingRaw (runFrom (stepEv s (Ev.submit idx payload)) rest))
                ((idx, payload) :: submittedPairs rest) := by
              rw [hs]
              simpa [pendingRaw] using h
            show List.Sublist
              (publishedFrom (stepEv s (Ev.submit idx payload)) rest ++
                pendingRaw (runFrom (stepEv s (Ev.submit idx payload)) rest))
              (pendingRaw s ++ (idx, payload) :: submittedPairs rest)
            exact h2.trans
              (List.sublist_append_right (pendingRaw s)
                ((idx, payload) :: submittedPairs rest))
          · have hs : stepEv s (Ev.submit idx payload) = s := by
              simp [stepEv, hg]
            have h := ih (stepEv s (Ev.submit idx payload))
            rw [hs] at h
            show List.Sublist
              (publishedFrom (stepEv s (Ev.submit idx payload)) rest ++
                pendingRaw (runFrom (stepEv s (Ev.submit idx payload)) rest))
              (pendingRaw s ++ (idx, payload) :: submittedPairs rest)
            rw [hs]
            exact h.trans
              ((List.sublist_cons_self (idx, payload)
                (submittedPairs rest)).append_left (pendingRaw s))
      | work =>
          by_cases hg : (s.continue_calibration_thread && !s.pause_state
              && s.data_to_calibrate_available) = true
          · have hraw : s.data_to_calibrate_available = true := by
              simp only [Bool.and_eq_true] at hg
              exact hg.2
            have hs : stepEv s Ev.work =
                { s with data_to_calibrate_available := false,
                         calibrated_data_available := true,
                         frameIndex_calibrated := s.frameIndex_to_calibrate,
                         calibrated_payload := s.raw_payload,
                         frameTaken := false } := by
              simp [stepEv, hg]
            have h := ih (stepEv s Ev.work)
            rw [hs] at h
            have h2 : List.Sublist
                (publishedFrom (stepEv s Ev.work) rest ++
                  pendingRaw (runFrom (stepEv s Ev.work) rest))
                (submittedPairs rest) := by
              rw [hs]
              simpa [pendingRaw] using h
            show List.Sublist
              (((if s.continue_calibration_thread && !s.pause_state
                    && s.data_to_calibrate_available then
                  [(s.frameIndex_to_calibrate, s.raw_payload)]
                else []) ++ publishedFrom (stepEv s Ev.work) rest) ++
                pendingRaw (runFrom (stepEv s Ev.work) rest))
              (pendingRaw s ++ submittedPairs rest)
            rw [if_pos hg]
            have hpr : pendingRaw s = [(s.frameIndex_to_calibrate, s.raw_payload)] := by
              simp [pendingRaw, hraw]
            rw [hpr, List.append_assoc]
            exact h2.append_left [(s.frameIndex_to_calibrate, s.raw_payload)]
          · have hs : stepEv s Ev.work = s := by
              simp only [stepEv, if_neg hg]
            have h := ih (stepEv s Ev.work)
            show List.Sublist
              (((if s.continue_calibration_thread && !s.pause_state
                    && s.data_to_calibrate_available then
                  [(s.frameIndex_to_calibrate, s.raw_payload)]
                else []) ++ publishedFrom (stepEv s Ev.work) rest) ++
                pendingRaw (runFrom (stepEv s Ev.work) rest))
              (pendingRaw s ++ submittedPairs rest)
            rw [if_neg hg, List.nil_append, hs]
            rw [hs] at h
            exact h
      | getFrame =>
          by_cases hc : s.calibrated_data_available = true
          · have hs : stepEv s Ev.getFrame =
                { s with calibrated_data_available := false,
                         frameTaken := true } := by
              simp [stepEv, getFrameData, hc]
            have h := ih (stepEv s Ev.getFrame)
            rw [hs] at h
            have h2 : List.Sublist
                (publishedFrom (stepEv s Ev.getFrame) rest ++
                  pendingRaw (runFrom (stepEv s Ev.getFrame) rest))
                (pendingRaw s ++ submittedPairs rest) := by
              rw [hs]
              simpa [pendingRaw] using h
            exact h2
          · have hs : stepEv s Ev.getFrame = s := by
              simp [stepEv, getFrameData, hc]
            have h := ih (stepEv s Ev.getFrame)
            rw [hs] at h
            show List.Sublist
              (publishedFrom (stepEv s Ev.getFrame) rest ++
                pendingRaw (runFrom (stepEv s Ev.getFrame) rest))
              (pendingRaw s ++ submittedPairs rest)
            rw [hs]
            exact h

/-- Every frame the consumer observes, and the calibrated frame still pending
at the end, stem from the worker publications, in publication order: the
bookkeeping invariant of the calibrated mailbox. -/
theorem obs_sublist (evs : List Ev) :
    ∀ s : PState,
      List.Sublist (obsFrom s evs ++ pendingCal (runFrom s evs))
        (pendingCal s ++ publishedFrom s evs) := by
  induction evs with
  | nil =>
      intro s
      simp only [obsFrom, runFrom, List.foldl_nil, publishedFrom,
        List.nil_append, List.append_nil]
      exact List.Sublist.refl _
  | cons e rest ih =>
      intro s
      cases e with
      | connect => exact ih (stepEv s Ev.connect)
      | disconnect => exact ih (stepEv s Ev.disconnect)
      | setPause b => exact ih (stepEv s (Ev.setPause b))
      | setCalibration b => exact ih (stepEv s (Ev.setCalibration b))
      | queryProcessed => exact ih (stepEv s Ev.queryProcessed)
      | submit idx payload =>
          by_cases hg : (s.calibration_enabled && s.connected) = true
          · have hs : stepEv s (Ev.submit idx payload) =
                { s with data_to_calibrate_available := true,
                         frameIndex_to_calibrate := idx,
                         raw_payload := payload } := by
              simp [stepEv, hg]
            have h := ih (stepEv s (Ev.submit idx payload))
            rw [hs] at h
            show List.Sublist
              (obsFrom (stepEv s (Ev.submit idx payload)) rest ++
                pendingCal (runFrom (stepEv s (Ev.submit idx payload)) rest))
              (pendingCal s ++ publishedFrom (stepEv s (Ev.submit idx payload)) rest)
            rw [hs]
            simpa [pendingCal] using h
          · have hs : stepEv s (Ev.submit idx payload) = s := by
              simp [stepEv, hg]
            have h := ih (stepEv s (Ev.submit idx payload))
            rw [hs] at h
            show List.Sublist
              (obsFrom (stepEv s (Ev.submit idx payload)) rest ++
                pendingCal (runFrom (stepEv s (Ev.submit idx payload)) rest))
              (pendingCal s ++ publishedFrom (stepEv s (Ev.submit idx payload)) rest)
            rw [hs]
            exact h
      | work =>
          by_cases hg : (s.continue_calibration_thread && !s.pause_state
              && s.data_to_calibrate_available) = true
          · have hs : stepEv s Ev.work =
                { s with data_to_calibrate_available := false,
                         calibrated_data_available := true,
                         frameIndex_calibrated := s.frameIndex_to_calibrate,
                         calibrated_payload := s.raw_payload,
                         frameTaken := false } := by
              simp [stepEv, hg]
            have h := ih (stepEv s Ev.work)
            rw [hs] at h
            have h2 : List.Sublist
                (obsFrom (stepEv s Ev.work) rest ++
                  pendingCal (runFrom (stepEv s Ev.work) rest))
                ((s.frameIndex_to_calibrate, s.raw_payload) ::
                  publishedFrom (stepEv s Ev.work) rest) := by
              rw [hs]
              simpa [pendingCal] using h
            show List.Sublist
              (([] ++ obsFrom (stepEv s Ev.work) rest) ++
                pendingCal (runFrom (stepEv s Ev.work) rest))
              (pendingCal s ++
                ((if s.continue_calibration_thread && !s.pause_state
                      && s.data_to_calibrate_available then
                    [(s.frameIndex_to_calibrate, s.raw_payload)]
                  else []) ++ publishedFrom (stepEv s Ev.work) rest))
            rw [if_pos hg, List.nil_append]
            exact h2.trans
              (List.sublist_append_right (pendingCal s)
                ((s.frameIndex_to_calibrate, s.raw_payload) ::
                  publishedFrom (stepEv s Ev.work) rest))
          · have hs : stepEv s Ev.work = s := by
              simp only [stepEv, if_neg hg]
            have h := ih (stepEv s Ev.work)
            rw [hs] at h
            show List.Sublist
              (([] ++ obsFrom (stepEv s Ev.work) rest) ++
                pendingCal (runFrom (stepEv s Ev.work) rest))
              (pendingCal s ++
                ((if s.continue_calibration_thread && !s.pause_state
                      && s.data_to_calibrate_available then
                    [(s.frameIndex_to_calibrate, s.raw_payload)]
                  else []) ++ publishedFrom (stepEv s Ev.work) rest))
            rw [if_neg hg, List.nil_append, List.nil_append, hs]
            exact h
      | getFrame =>
          by_cases hc : s.calibrated_data_available = true
          · have hs : stepEv s Ev.getFrame =
                { s with calibrated_data_available := false,
                         frameTaken := true } := by
              simp [stepEv, getFrameData, hc]
            have hpc : pendingCal s =
                [(s.frameIndex_calibrated, s.calibrated_payload)] := by
              simp [pendingCal, hc]
            have h := ih (stepEv s Ev.getFrame)
            rw [hs] at h
            have h2 : List.Sublist
                (obsFrom (stepEv s Ev.getFrame) rest ++
                  pendingCal (runFrom (stepEv s Ev.getFrame) rest))
                (publishedFrom (stepEv s Ev.getFrame) rest) := by
              rw [hs]
              simpa [pendingCal] using h
            show List.Sublist
              (((if s.calibrated_data_available then
                  [(s.frameIndex_calibrated, s.calibrated_payload)]
                else []) ++ obsFrom (stepEv s Ev.getFrame) rest) ++
                pendingCal (runFrom (stepEv s Ev.getFrame) rest))
              (pendingCal s ++ publishedFrom (stepEv s Ev.getFrame) rest)
            rw [if_pos hc, hpc, List.append_assoc]
            exact h2.append_left [(s.frameIndex_calibrated, s.calibrated_payload)]
          · have hs : stepEv s Ev.getFrame = s := by
              simp [stepEv, getFrameData, hc]
            have hpc : pendingCal s = [] := by
              simp [pendingCal, hc]
            have h := ih (stepEv s Ev.getFrame)
            rw [hs] at h
            show List.Sublist
              (((if s.calibrated_data_available then
                  [(s.frameIndex_calibrated, s.calibrated_payload)]
                else []) ++ obsFrom (stepEv s Ev.getFrame) rest) ++
                pendingCal (runFrom (stepEv s Ev.getFrame) rest))
              (pendingCal s ++ publishedFrom (stepEv s Ev.getFrame) rest)
            rw [if_neg hc, List.nil_append, hs]
            exact h

/-- Publications along a run from the initial state are a subsequence of
submissions. -/
theorem published_init_sublist (evs : List Ev) :
    List.Sublist (publishedFrom initState evs) (submittedPairs evs) := by
  have h := published_sublist evs initState
  have h0 : pendingRaw initState = [] := rfl
  rw [h0, List.nil_append] at h
  exact (List.sublist_append_left (publishedFrom initState evs)
    (pendingRaw (runFrom initState evs))).trans h

/-- Observations along a run from the initial state are a subsequence of
publications. -/
theorem obs_init_sublist_published (evs : List Ev) :
    List.Sublist (obsFrom initState evs) (publishedFrom initState evs) := by
  have h := obs_sublist evs initState
  have h0 : pendingCal initState = [] := rfl
  rw [h0, List.nil_append] at h
  exact (List.sublist_append_left (obsFrom initState evs)
    (pendingCal (runFrom initState evs))).trans h

/-- Observations along a run from the initial state are a subsequence of
submissions. -/
theorem obs_init_sublist_submitted (evs : List Ev) :
    List.Sublist (obsFrom initState evs) (submittedPairs evs) :=
  (obs_init_sublist_published evs).trans (published_init_sublist evs)

theorem obsFrom_append (l1 l2 : List Ev) :
    ∀ s : PState, obsFrom s (l1 ++ l2) =
      obsFrom s l1 ++ obsFrom (runFrom s l1) l2 := by
  induction l1 with
  | nil => intro s; rfl
  | cons e rest ih =>
      intro s
      show (match e with
            | Ev.getFrame =>
                if s.calibrated_data_available then
                  [(s.frameIndex_calibrated, s.calibrated_payload)]
                else []
            | _ => []) ++ obsFrom (stepEv s e) (rest ++ l2) = _
      rw [ih (stepEv s e)]
      simp [obsFrom, List.append_assoc]
      rfl

theorem obsFrom_scen3 (a : ℤ) (p : ℕ) :
    ∀ l : List Ev, workGetOnly l → obsFrom (scenState3 a p) l = []
  | [], _ => rfl
  | e :: rest, h => by
      have hrest : workGetOnly rest :=
        fun x hx => h x (List.mem_cons_of_mem e hx)
      obtain he | he := h e (List.mem_cons_self e rest) <;> subst he
      · show ([] : List (ℤ × ℕ)) ++
            obsFrom (stepEv (scenState3 a p) Ev.work) rest = []
        have hs : stepEv (scenState3 a p) Ev.work = scenState3 a p := rfl
        rw [hs, List.nil_append]
        exact obsFrom_scen3 a p rest hrest
      · show ([] : List (ℤ × ℕ)) ++
            obsFrom (stepEv (scenState3 a p) Ev.getFrame) rest = []
        have hs : stepEv (scenState3 a p) Ev.getFrame = scenState3 a p := rfl
        rw [hs, List.nil_append]
        exact obsFrom_scen3 a p rest hrest

theorem obsFrom_scen2 (a : ℤ) (p : ℕ) :
    ∀ l : List Ev, workGetOnly l →
      obsFrom (scenState2 a p) l = [] ∨ obsFrom (scenState2 a p) l = [(a, p)]
  | [], _ => Or.inl rfl
  | e :: rest, h => by
      have hrest : workGetOnly rest :=
        fun x hx => h x (List.mem_cons_of_mem e hx)
      obtain he | he := h e (List.mem_cons_self e rest) <;> subst he
      · have hs : stepEv (scenState2 a p) Ev.work = scenState2 a p := rfl
        show ([] : List (ℤ × ℕ)) ++
            obsFrom (stepEv (scenState2 a p) Ev.work) rest = [] ∨
          ([] : List (ℤ × ℕ)) ++
            obsFrom (stepEv (scenState2 a p) Ev.work) rest = [(a, p)]
        rw [hs, List.nil_append]
        exact obsFrom_scen2 a p rest hrest
      · have hs : stepEv (scenState2 a p) Ev.getFrame = scenState3 a p := rfl
        show [(a, p)] ++
            obsFrom (stepEv (scenState2 a p) Ev.getFrame) rest = [] ∨
          [(a, p)] ++
            obsFrom (stepEv (scenState2 a p) Ev.getFrame) rest = [(a, p)]
        rw [hs, obsFrom_scen3 a p rest hrest]
        exact Or.inr rfl

theorem obsFrom_scen1 (a : ℤ) (p : ℕ) :
    ∀ l : List Ev, workGetOnly l →
      obsFrom (scenState1 a p) l = [] ∨ obsFrom (scenState1 a p) l = [(a, p)]
  | [], _ => Or.inl rfl
  | e :: rest, h => by
      have hrest : workGetOnly rest :=
        fun x hx => h x (List.mem_cons_of_mem e hx)
      obtain he | he := h e (List.mem_cons_self e rest) <;> subst he
      · have hs : stepEv (scenState1 a p) Ev.work = scenState2 a p := rfl
        show ([] : List (ℤ × ℕ)) ++
            obsFrom (stepEv (scenState1 a p) Ev.work) rest = [] ∨
          ([] : List (ℤ × ℕ)) ++
            obsFrom (stepEv (scenState1 a p) Ev.work) rest = [(a, p)]
        rw [hs, List.nil_append]
        exact obsFrom_scen2 a p rest hrest
      · have hs : stepEv (scenState1 a p) Ev.getFrame = scenState1 a p := rfl
        show ([] : List (ℤ × ℕ)) ++
            obsFrom (stepEv (scenState1 a p) Ev.getFrame) rest = [] ∨
          ([] : List (ℤ × ℕ)) ++
            obsFrom (stepEv (scenState1 a p) Ev.getFrame) rest = [(a, p)]
        rw [hs, List.nil_append]
        exact obsFrom_scen1 a p rest hrest

/-- C3: frame-index fidelity.  Along every event interleaving from the
initial state, the (index, payload) pairs the worker publishes form a
subsequence of the submitted pairs — every calibrated frame is derived from
some submitted raw frame, carries exactly that frame's index, and is never
fabricated or reordered relative to its source — and the pairs the consumer
observes form a subsequence of the published ones. -/
theorem frame_index_fidelity (evs : List Ev) :
    List.Sublist (publishedFrom initState evs) (submittedPairs evs) ∧
    List.Sublist (obsFrom initState evs) (publishedFrom initState evs) :=
  ⟨published_init_sublist evs, obs_init_sublist_published evs⟩

/-- C4 counterexample: the claim that after submitting A and then B before
any getFrameData call the consumer observes only B or nothing is false when
the worker drains A between the two submissions: in cexEvents both A = (1,10)
and B = (2,20) are submitted before the only consumer take, yet the consumer
observes A. -/
theorem backpressure_counterexample :
    submittedPairs cexEvents = [(1, 10), (2, 20)] ∧
    obsFrom initState cexEvents = [(1, 10)] ∧
    ¬(obsFrom initState cexEvents = [] ∨
      obsFrom initState cexEvents = [((2 : ℤ), (20 : ℕ))]) :=
  ⟨rfl, rfl, by decide⟩

/-- C4 (amended): if frame A and then frame B are submitted back to back, with
no worker drain between the two submissions, then whatever worker and consumer
steps follow, the consumer observes only B or nothing, and A is never
delivered; in general the observed frames are a subsequence of the submitted
frames (never duplicated or reordered, only skipped), so whenever the
submitted indices are non-decreasing the observed indices are
non-decreasing. -/
theorem backpressure_ordering (a1 : ℤ) (p1 : ℕ) (a2 : ℤ) (p2 : ℕ)
    (tail : List Ev) (evs : List Ev)
    (htail : workGetOnly tail)
    (hmono : List.Chain' (· ≤ ·) (List.map Prod.fst (submittedPairs evs))) :
    (obsFrom initState (scenEvents a1 p1 a2 p2 ++ tail) = [] ∨
     obsFrom initState (scenEvents a1 p1 a2 p2 ++ tail) = [(a2, p2)]) ∧
    List.Sublist (obsFrom initState evs) (submittedPairs evs) ∧
    List.Chain' (· ≤ ·) (List.map Prod.fst (obsFrom initState evs)) := by
  refine ⟨?_, obs_init_sublist_submitted evs, ?_⟩
  · rw [obsFrom_append (scenEvents a1 p1 a2 p2) tail initState]
    have h1 : obsFrom initState (scenEvents a1 p1 a2 p2) = [] := rfl
    have h2 : runFrom initState (scenEvents a1 p1 a2 p2) = scenState1 a2 p2 := rfl
    rw [h1, h2, List.nil_append]
    exact obsFrom_scen1 a2 p2 tail htail
  · exact hmono.sublist ((obs_init_sublist_submitted evs).map Prod.fst)

/-- Witness for C4 at frames (1, 10) and (2, 20), a drain-then-take tail, and
the two-round trace monoEvents whose submitted indices 1, 2 are
non-decreasing. -/
theorem backpressure_ordering_witness :
    workGetOnly [Ev.work, Ev.getFrame] ∧
    List.Chain' (· ≤ ·) (List.map Prod.fst (submittedPairs monoEvents)) ∧
    ((obsFrom initState
        (scenEvents 1 10 2 20 ++ [Ev.work, Ev.getFrame]) = [] ∨
      obsFrom initState
        (scenEvents 1 10 2 20 ++ [Ev.work, Ev.getFrame]) = [(2, 20)]) ∧
    List.Sublist (obsFrom initState monoEvents) (submittedPairs monoEvents) ∧
    List.Chain' (· ≤ ·) (List.map Prod.fst (obsFrom initState monoEvents))) :=
  ⟨by decide,
   by simp [monoEvents, submittedPairs, List.chain'_cons],
   backpressure_ordering 1 10 2 20 [Ev.work, Ev.getFrame] monoEvents
     (by decide)
     (by simp [monoEvents, submittedPairs, List.chain'_cons])⟩

/-- C7: frameProcessed contract.  In every reachable pipeline state the
RGBDFrameProcessed query returns true exactly when no published calibrated
frame is still pending untaken (the previously published frame, if any, has
been taken by the consumer), and issuing the query leaves the state
unchanged. -/
theorem frameProcessed_contract (evs : List Ev) :
    (RGBDFrameProcessed (runEvents evs) = true ↔
      (runEvents evs).calibrated_data_available = false) ∧
    stepEv (runEvents evs) Ev.queryProcessed = runEvents evs := by
  have h := runFrom_frameTaken evs initState rfl
  constructor
  · rw [RGBDFrameProcessed]
    rw [show runEvents evs = runFrom initState evs from rfl, h]
    cases (runFrom initState evs).calibrated_data_available <;> simp
  · rfl

/-- C8: getFrame emptiness contract.  When no calibrated frame is pending,
getFrameData returns false as an ordinary boolean result and leaves the
pipeline state exactly as it was. -/
theorem getFrame_empty_contract (s : PState)
    (h : s.calibrated_data_available = false) :
    getFrameData s = (false, s) ∧ stepEv s Ev.getFrame = s := by
  constructor
  · simp [getFrameData, h]
  · simp [stepEv, getFrameData, h]

/-- Witness for C8 at the initial state, where nothing is pending. -/
theorem getFrame_empty_contract_witness :
    initState.calibrated_data_available = false ∧
    (getFrameData initState = (false, initState) ∧
      stepEv initState Ev.getFrame = initState) :=
  ⟨rfl, getFrame_empty_contract initState rfl⟩

/-- C9 counterexample: connectDevice does not start the worker in the Running
state: the header documents that the pipeline is paused by default after a
connection, so right after the connect event the worker is Paused, not
Running. -/
theorem connect_running_counterexample :
    workerState (runEvents [Ev.connect]) = WState.Paused ∧
    workerState (runEvents [Ev.connect]) ≠ WState.Running :=
  ⟨rfl, by decide⟩

/-- C9 (amended): connectDevice starts the worker thread in the Paused state
(paused by default after a connection, as the header documents), never
Running; before any connection the worker is Idle; setPause false then yields
Running; and Running is reached only through a setPause false call: whenever
any one event e moves the worker from any state s0 into Running, either e is
the setPause false event or the worker was Running in s0 already — no other
event can enter the Running state. -/
theorem connect_starts_paused (s0 : PState) (e : Ev)
    (hrun : workerState (stepEv s0 e) = WState.Running) :
    (∀ s : PState, workerState (stepEv s Ev.connect) = WState.Paused) ∧
    workerState (runEvents [Ev.connect, Ev.setPause false]) = WState.Running ∧
    workerState initState = WState.Idle ∧
    (e = Ev.setPause false ∨ workerState s0 = WState.Running) := by
  refine ⟨fun _ => rfl, rfl, rfl, ?_⟩
  cases e with
  | connect => simp [stepEv, workerState] at hrun
  | disconnect => simp [stepEv, workerState] at hrun
  | setPause b =>
      cases b with
      | false => exact Or.inl rfl
      | true =>
          by_cases hc : s0.continue_calibration_thread = true <;>
            simp [stepEv, workerState, hc] at hrun
  | setCalibration b => exact Or.inr hrun
  | queryProcessed => exact Or.inr hrun
  | submit idx payload =>
      have hw : workerState (stepEv s0 (Ev.submit idx payload)) =
          workerState s0 := by
        simp only [stepEv]
        split <;> rfl
      rw [hw] at hrun
      exact Or.inr hrun
  | work =>
      have hw : workerState (stepEv s0 Ev.work) = workerState s0 := by
        simp only [stepEv]
        split <;> rfl
      rw [hw] at hrun
      exact Or.inr hrun
  | getFrame =>
      have hw : workerState (stepEv s0 Ev.getFrame) = workerState s0 := by
        simp only [stepEv, getFrameData]
        split <;> rfl
      rw [hw] at hrun
      exact Or.inr hrun

/-- Witness for C9 at the state right after connect, which the setPause false
event moves into Running. -/
theorem connect_starts_paused_witness :
    workerState (stepEv (runEvents [Ev.connect]) (Ev.setPause false)) =
      WState.Running ∧
    ((∀ s : PState, workerState (stepEv s Ev.connect) = WState.Paused) ∧
     workerState (runEvents [Ev.connect, Ev.setPause false]) = WState.Running ∧
     workerState initState = WState.Idle ∧
     (Ev.setPause false = Ev.setPause false ∨
       workerState (runEvents [Ev.connect]) = WState.Running)) :=
  ⟨rfl, connect_starts_paused (runEvents [Ev.connect]) (Ev.setPause false) rfl⟩

/-- C10: setCalibration writes the calibration-enabled flag to its argument
and changes nothing else — no mailbox flag, index or payload, no pause or
lifecycle flag — unconditionally in every state, and it acquires neither
mailbox lock. -/
theorem setCalibration_only_flag (s : PState) (b : Bool) :
    (setCalibration s b).calibration_enabled = b ∧
    (setCalibration s b).connected = s.connected ∧
    (setCalibration s b).continue_calibration_thread =
      s.continue_calibration_thread ∧
    (setCalibration s b).pause_state = s.pause_state ∧
    (setCalibration s b).data_to_calibrate_available =
      s.data_to_calibrate_available ∧
    (setCalibration s b).frameIndex_to_calibrate = s.frameIndex_to_calibrate ∧
    (setCalibration s b).raw_payload = s.raw_payload ∧
    (setCalibration s b).calibrated_data_available =
      s.calibrated_data_available ∧
    (setCalibration s b).frameIndex_calibrated = s.frameIndex_calibrated ∧
    (setCalibration s b).calibrated_payload = s.calibrated_payload ∧
    (setCalibration s b).frameTaken = s.frameTaken ∧
    acquiredLocks (Ev.setCalibration b) = [] :=
  ⟨rfl, rfl, rfl, rfl, rfl, rfl, rfl, rfl, rfl, rfl, rfl, rfl⟩

end RGBD
